import Mathlib

/-!
Verification of the greenlight movie-catalog API against its
natural-language specification.

The Go source is shallowly embedded: pure helpers become Lean functions,
the SQL statements of the data models become explicit transformations of
an in-memory table (a list of rows), and fallible operations return
`Except`/`Option` values.  Machine integers (`int64`, `int32`) are
modelled as unbounded `Int`: none of the verified operations performs
arithmetic where 64/32-bit wrap-around is reachable (PostgreSQL raises an
overflow error instead of wrapping, an error path outside the
behaviours claimed here).
-/

namespace Greenlight

/-- Errors of the `internal/data` package (`models.go`):
`ErrRecordNotFound`, `ErrEditConflict`, plus a catch-all for any other
`error` value a database driver could produce. -/
inductive DataErr
  | recordNotFound
  | editConflict
  | other (msg : String)
deriving DecidableEq, Repr

/-- Outcome of running Go code that may `panic`: either a normal result
or a panic carrying the panic message. -/
inductive PanicOr (α : Type)
  | ok (a : α)
  | panicked (msg : String)
deriving DecidableEq, Repr

/-! ### Movies (`internal/data/movies.go`)

A movie row as stored in the `movies` table.  `created_at` is an opaque
timestamp (modelled as `Int`), `genres` a `TEXT[]` column. -/

structure Movie where
  id : Int
  createdAt : Int
  title : String
  year : Int
  runtime : Int
  genres : List String
  version : Int
deriving DecidableEq, Repr

/-- The movies table: a list of rows.  The `id` column is the
`BIGSERIAL PRIMARY KEY`, so well-formed tables have pairwise distinct
ids. -/
abbrev MoviesTable := List Movie

/-- Pairwise-distinct primary keys, the `movies` table invariant. -/
abbrev uniqueIds (db : MoviesTable) : Prop :=
  db.Pairwise (fun a b => a.id ≠ b.id)

/-- The `SET` clause of `MovieModel.Update`:
`SET title = $1, year = $2, runtime = $3, genres = $4,
version = version + 1` applied to one matching row. -/
def applyUpdate (movie row : Movie) : Movie :=
  { row with
    title := movie.title
    year := movie.year
    runtime := movie.runtime
    genres := movie.genres
    version := row.version + 1 }

/-- Row-by-row effect of the `UPDATE ... WHERE id = $5 AND version = $6
RETURNING version` statement: returns the transformed table together
with the list of `RETURNING version` values of the affected rows. -/
def updateRun (movie : Movie) : MoviesTable → MoviesTable × List Int
  | [] => ([], [])
  | row :: rest =>
    let r := updateRun movie rest
    if row.id = movie.id ∧ row.version = movie.version then
      (applyUpdate movie row :: r.1, (row.version + 1) :: r.2)
    else
      (row :: r.1, r.2)

/-- `MovieModel.Update` (`movies.go`): runs the conditional update; if
`QueryRow(...).Scan` finds no returned row (`sql.ErrNoRows`) it returns
`ErrEditConflict`, otherwise it scans the returned new version into
`movie.Version`.  Result: the (possibly updated) movie value or the
error, together with the table after the statement. -/
def MovieModel.Update (movie : Movie) (db : MoviesTable) :
    Except DataErr Movie × MoviesTable :=
  let r := updateRun movie db
  match r.2 with
  | [] => (.error .editConflict, r.1)
  | v :: _ => (.ok { movie with version := v }, r.1)

/-- `MovieModel.Get` (`movies.go`): for `id < 1` it short-circuits to
`ErrRecordNotFound` without touching the database; otherwise it queries
by primary key and maps `sql.ErrNoRows` to `ErrRecordNotFound`.  The
`Bool` component records whether a query was issued to the store. -/
def MovieModel.Get (id : Int) (db : MoviesTable) :
    Bool × Except DataErr Movie :=
  if id < 1 then
    (false, .error .recordNotFound)
  else
    match db.find? (fun r => r.id == id) with
    | none => (true, .error .recordNotFound)
    | some row => (true, .ok row)

/-- `MovieModel.Delete` (`movies.go`): for `id < 1` it short-circuits to
`ErrRecordNotFound` without touching the database; otherwise it deletes
by primary key and returns `ErrRecordNotFound` when zero rows were
affected.  The `Bool` component records whether a query was issued. -/
def MovieModel.Delete (id : Int) (db : MoviesTable) :
    (Bool × Except DataErr Unit) × MoviesTable :=
  if id < 1 then
    ((false, .error .recordNotFound), db)
  else
    let db2 := db.filter (fun r => !(r.id == id))
    if db2.length = db.length then
      ((true, .error .recordNotFound), db2)
    else
      ((true, .ok ()), db2)

/-! ### Validator (`internal/validator`)

The validator package itself ships outside the provided sources; only
its use sites appear in `internal/data`. -/

/-- Modelled from the spec: the `internal/validator` package (absent
from the provided sources; only its callers are).  The spec describes
validation errors as "field-level, map of field→message"; the call
sites show `Check(ok, key, message)` recording `message` under `key`
when `ok` is false, keeping the first message per field. -/
structure Validator where
  errors : List (String × String)
deriving DecidableEq, Repr

/-- `Validator.Valid`: no recorded field errors. -/
def Validator.valid (v : Validator) : Bool := v.errors.isEmpty

/-- `Validator.AddError`: record a message for a field unless the field
already has one. -/
def Validator.addError (v : Validator) (key message : String) : Validator :=
  if (v.errors.find? (fun p => p.1 = key)).isSome then v
  else { errors := v.errors ++ [(key, message)] }

/-- `Validator.Check`: add the field error when the condition fails. -/
def Validator.check (v : Validator) (ok : Bool) (key message : String) : Validator :=
  if ok then v else v.addError key message

/-! ### Users and password credentials (`internal/data/users.go`)

The bcrypt primitive comes from the external dependency
`golang.org/x/crypto/bcrypt`.  It is modelled as an ideal (that is,
collision-free) password-hashing functionality: a well-formed hash
remembers the cost and the exact password it was derived from, and the
comparison succeeds exactly on that password.  This is the standard
idealization of a cryptographic hash; everything else, including the
error taxonomy of the comparison, follows the library's contract. -/

inductive BcryptErr
  | mismatchedHashAndPassword
  | passwordTooLong
  | hashMalformed (msg : String)
deriving DecidableEq, Repr

/-- A well-formed bcrypt hash value (idealized): records the cost and
the password it hashes. -/
inductive BcryptHash
  | fromPassword (cost : Nat) (key : String)
deriving DecidableEq, Repr

/-- The `hash []byte` field of the `password` struct: the Go slice can
be nil, hold bytes that parse as a bcrypt hash, or hold garbage. -/
inductive StoredBytes
  | nil
  | valid (h : BcryptHash)
  | malformed (raw : String)
deriving DecidableEq, Repr

/-- `bcrypt.GenerateFromPassword`: rejects passwords longer than 72
bytes, otherwise produces the (idealized) hash at the given cost. -/
def bcryptGenerateFromPassword (password : String) (cost : Nat) :
    Except BcryptErr StoredBytes :=
  if 72 < password.utf8ByteSize then .error .passwordTooLong
  else .ok (.valid (.fromPassword cost password))

/-- `bcrypt.CompareHashAndPassword`: `none` on success; the dedicated
mismatch error on a legitimate mismatch; a parse error on a nil or
malformed stored hash. -/
def bcryptCompareHashAndPassword (hash : StoredBytes) (password : String) :
    Option BcryptErr :=
  match hash with
  | .nil => some (.hashMalformed "hashedSecret too short to be a bcrypted password")
  | .malformed raw => some (.hashMalformed raw)
  | .valid (.fromPassword _ key) =>
    if key = password then none else some .mismatchedHashAndPassword

/-- The `password` struct of `users.go`: transient plaintext (a nil-able
pointer) plus the stored hash bytes. -/
structure Password where
  plaintext : Option String
  hash : StoredBytes
deriving DecidableEq, Repr

/-- `password.Set`: bcrypt-hash the plaintext at cost 12 and store both
the hash and the plaintext.  On a hashing error the receiver is left
unchanged and the error is returned. -/
def Password.Set (p : Password) (plaintextPassword : String) :
    Except BcryptErr Password :=
  match bcryptGenerateFromPassword plaintextPassword 12 with
  | .error e => .error e
  | .ok h => .ok { plaintext := some plaintextPassword, hash := h }

/-- `password.Matches`: translate the bcrypt comparison outcome:
success ↦ `(true, nil)`, `ErrMismatchedHashAndPassword` ↦
`(false, nil)`, anything else ↦ `(false, err)`. -/
def Password.Matches (p : Password) (plaintextPassword : String) :
    Bool × Option BcryptErr :=
  match bcryptCompareHashAndPassword p.hash plaintextPassword with
  | none => (true, none)
  | some .mismatchedHashAndPassword => (false, none)
  | some e => (false, some e)

/-- The `User` struct of `users.go`. -/
structure User where
  id : Int
  createdAt : Int
  name : String
  email : String
  password : Password
  activated : Bool
  version : Int
deriving DecidableEq, Repr

/-- `ValidateEmail` (`users.go`): non-empty and matching `EmailRX`.
The regex engine is opaque here, passed as a predicate. -/
def ValidateEmail (emailRX : String → Bool) (v : Validator) (email : String) :
    Validator :=
  (v.check (decide (email ≠ "")) "email" "must be provided").check
    (emailRX email) "email" "must be valid email address"

/-- `ValidatePasswordPlaintext` (`users.go`): non-empty and between 8
and 72 bytes long. -/
def ValidatePasswordPlaintext (v : Validator) (password : String) : Validator :=
  ((v.check (decide (password ≠ "")) "password" "must be provided").check
      (decide (8 ≤ password.utf8ByteSize)) "password"
      "must be at least 8 bytes long").check
    (decide (password.utf8ByteSize ≤ 72)) "password"
    "must not be more than 72 bytes long"

/-- The field checks of `ValidateUser` (`users.go`): name non-empty and
at most 500 bytes, email validation, and, when a plaintext is present,
the plaintext password rules. -/
def userFieldChecks (emailRX : String → Bool) (v : Validator) (user : User) :
    Validator :=
  let v1 := v.check (decide (user.name ≠ "")) "name" "must be provided"
  let v2 := v1.check (decide (user.name.utf8ByteSize ≤ 500)) "name"
    "must not be more than 500 bytes long"
  let v3 := ValidateEmail emailRX v2 user.email
  match user.password.plaintext with
  | some pt => ValidatePasswordPlaintext v3 pt
  | none => v3

/-- `ValidateUser` (`users.go`): runs the field checks; a nil password
hash is a programming defect and raises a panic instead of a field
error. -/
def ValidateUser (emailRX : String → Bool) (v : Validator) (user : User) :
    PanicOr Validator :=
  let v4 := userFieldChecks emailRX v user
  match user.password.hash with
  | .nil => .panicked "missing password hash for user"
  | _ => .ok v4

/-! ### Tokens (`internal/data/tokens.go`)

`generateToken` draws 16 random bytes, base-32 encodes them without
padding (`encoding/base32`, standard alphabet) for the plaintext, and
stores the SHA-256 digest (`crypto/sha256`, implemented below in full)
of the plaintext bytes as the lookup hash.  Bytes are `Nat` values
below 256; 32-bit words are `Nat` values reduced modulo `2 ^ 32`. -/

/-- The scope constant `ScopeActivation`. -/
def ScopeActivation : String := "activation"

/-- The eight bits of a byte, most significant first. -/
def byteBits (b : Nat) : List Bool :=
  [b.testBit 7, b.testBit 6, b.testBit 5, b.testBit 4,
   b.testBit 3, b.testBit 2, b.testBit 1, b.testBit 0]

/-- Split a bit stream into 5-bit groups, zero-padding the last group
on the right (RFC 4648 base-32 grouping). -/
def chunk5 : List Bool → List (List Bool)
  | [] => []
  | [a] => [[a, false, false, false, false]]
  | [a, b] => [[a, b, false, false, false]]
  | [a, b, c] => [[a, b, c, false, false]]
  | [a, b, c, d] => [[a, b, c, d, false]]
  | a :: b :: c :: d :: e :: rest => [a, b, c, d, e] :: chunk5 rest

/-- Numeric value of a big-endian bit group. -/
def bitsVal (bits : List Bool) : Nat :=
  bits.foldl (fun acc b => 2 * acc + (if b then 1 else 0)) 0

/-- The standard base-32 alphabet of `encoding/base32.StdEncoding`. -/
def base32StdAlphabet : List Char :=
  "ABCDEFGHIJKLMNOPQRSTUVWXYZ234567".toList

/-- `base32.StdEncoding.WithPadding(base32.NoPadding).EncodeToString`:
group the input bits into 5-bit quanta and map each through the
standard alphabet, emitting no padding characters. -/
def base32EncodeNoPad (bytes : List Nat) : List Char :=
  (chunk5 ((bytes.map byteBits).flatten)).map
    (fun c => base32StdAlphabet.getD (bitsVal c) 'A')

/-- The bytes of a string (all strings handled here are ASCII, where
code points and UTF-8 bytes coincide). -/
def strBytes (s : String) : List Nat := s.toList.map Char.toNat

/-- 32-bit right rotation. -/
def rotr32 (n x : Nat) : Nat :=
  ((x >>> n) ||| (x <<< (32 - n))) % 4294967296

/-- Split a byte list into chunks of `n`, with explicit fuel. -/
def chunksAux (n : Nat) : Nat → List Nat → List (List Nat)
  | 0, _ => []
  | _, [] => []
  | fuel + 1, l => l.take n :: chunksAux n fuel (l.drop n)

/-- SHA-256 round constants. -/
def sha256K : List Nat :=
  [1116352408, 1899447441, 3049323471, 3921009573, 961987163,
   1508970993, 2453635748, 2870763221, 3624381080, 310598401,
   607225278, 1426881987, 1925078388, 2162078206, 2614888103,
   3248222580, 3835390401, 4022224774, 264347078, 604807628,
   770255983, 1249150122, 1555081692, 1996064986, 2554220882,
   2821834349, 2952996808, 3210313671, 3336571891, 3584528711,
   113926993, 338241895, 666307205, 773529912, 1294757372,
   1396182291, 1695183700, 1986661051, 2177026350, 2456956037,
   2730485921, 2820302411, 3259730800, 3345764771, 3516065817,
   3600352804, 4094571909, 275423344, 430227734, 506948616,
   659060556, 883997877, 958139571, 1322822218, 1537002063,
   1747873779, 1955562222, 2024104815, 2227730452, 2361852424,
   2428436474, 2756734187, 3204031479, 3329325298]

/-- SHA-256 initial hash state. -/
def sha256H0 : List Nat :=
  [1779033703, 3144134277, 1013904242, 2773480762, 1359893119,
   2600822924, 528734635, 1541459225]

/-- Big-endian 32-bit words from bytes. -/
def bytesToWords32 (bytes : List Nat) : List Nat :=
  (chunksAux 4 bytes.length bytes).map
    (fun c => c.foldl (fun acc b => 256 * acc + b % 256) 0)

/-- Big-endian bytes of a 32-bit word. -/
def word32Bytes (w : Nat) : List Nat :=
  [w / 16777216 % 256, w / 65536 % 256, w / 256 % 256, w % 256]

/-- Extend the 16 message words to the 64-word SHA-256 schedule. -/
def sha256Extend : Nat → List Nat → List Nat
  | 0, w => w
  | fuel + 1, w =>
    let i := w.length
    let w15 := w.getD (i - 15) 0
    let w2 := w.getD (i - 2) 0
    let w16 := w.getD (i - 16) 0
    let w7 := w.getD (i - 7) 0
    let s0 := (rotr32 7 w15) ^^^ (rotr32 18 w15) ^^^ (w15 >>> 3)
    let s1 := (rotr32 17 w2) ^^^ (rotr32 19 w2) ^^^ (w2 >>> 10)
    sha256Extend fuel (w ++ [(w16 + s0 + w7 + s1) % 4294967296])

/-- One SHA-256 compression round on the 8-word working state. -/
def sha256Round (st : List Nat) (wk : Nat × Nat) : List Nat :=
  match st with
  | [a, b, c, d, e, f, g, h] =>
    let s1 := (rotr32 6 e) ^^^ (rotr32 11 e) ^^^ (rotr32 25 e)
    let ch := (e &&& f) ^^^ ((4294967295 ^^^ e) &&& g)
    let temp1 := (h + s1 + ch + wk.2 + wk.1) % 4294967296
    let s0 := (rotr32 2 a) ^^^ (rotr32 13 a) ^^^ (rotr32 22 a)
    let maj := (a &&& b) ^^^ (a &&& c) ^^^ (b &&& c)
    let temp2 := (s0 + maj) % 4294967296
    [(temp1 + temp2) % 4294967296, a, b, c, (d + temp1) % 4294967296, e, f, g]
  | other => other

/-- Process one 64-byte block into the running hash state. -/
def sha256Block (h : List Nat) (block : List Nat) : List Nat :=
  let w := sha256Extend 48 (bytesToWords32 block)
  let st := (w.zip sha256K).foldl sha256Round h
  (h.zip st).map (fun p => (p.1 + p.2) % 4294967296)

/-- SHA-256 message padding for a message of `len` bytes: `0x80`, zeros
to 56 mod 64, then the bit length as a 64-bit big-endian integer. -/
def sha256Pad (len : Nat) : List Nat :=
  let zeros := (64 + 55 - (len % 64)) % 64
  128 :: List.replicate zeros 0 ++
    [len * 8 / 72057594037927936 % 256, len * 8 / 281474976710656 % 256,
     len * 8 / 1099511627776 % 256, len * 8 / 4294967296 % 256,
     len * 8 / 16777216 % 256, len * 8 / 65536 % 256,
     len * 8 / 256 % 256, len * 8 % 256]

/-- `sha256.Sum256`: the 32 digest bytes of a byte message. -/
def sha256Bytes (msg : List Nat) : List Nat :=
  let padded := msg ++ sha256Pad msg.length
  let blocks := chunksAux 64 padded.length padded
  ((blocks.foldl sha256Block sha256H0).map word32Bytes).flatten

/-- The `Token` struct of `tokens.go`. -/
structure Token where
  plaintext : String
  hash : List Nat
  userID : Int
  expiry : Int
  scope : String
deriving DecidableEq, Repr

/-- `generateToken` (`tokens.go`): the outcome of `rand.Read` is passed
in explicitly (`.error` when the CSPRNG fails, otherwise the 16 drawn
bytes); `now` is the generation time.  On success the token carries the
unpadded base-32 plaintext, the SHA-256 hash of the plaintext bytes,
and `expiry = now + ttl`. -/
def generateToken (userID : Int) (ttl : Int) (scope : String) (now : Int)
    (randRead : Except String (List Nat)) : Except String Token :=
  match randRead with
  | .error e => .error e
  | .ok randomBytes =>
    let plaintext := String.mk (base32EncodeNoPad randomBytes)
    .ok { plaintext := plaintext
          hash := sha256Bytes (strBytes plaintext)
          userID := userID
          expiry := now + ttl
          scope := scope }

/-- `ValidateTokenPlaintext` (`tokens.go`): the plaintext must be
non-empty and exactly 26 bytes long. -/
def ValidateTokenPlaintext (v : Validator) (tokenPlaintext : String) :
    Validator :=
  (v.check (decide (tokenPlaintext ≠ "")) "token" "must be provided").check
    (decide (tokenPlaintext.utf8ByteSize = 26)) "token" "must be 26 bytes long"

/-- A persisted row of the `tokens` table: `(hash, user_id, expiry,
scope)`. -/
structure TokenRow where
  hash : List Nat
  userID : Int
  expiry : Int
  scope : String
deriving DecidableEq, Repr

/-- `TokenModel.DeleteAllForUser` (`tokens.go`):
`DELETE FROM tokens WHERE scope = $1 AND user_id = $2`. -/
def TokenModel.DeleteAllForUser (scope : String) (userID : Int)
    (db : List TokenRow) : List TokenRow :=
  db.filter (fun t => !(t.scope == scope && t.userID == userID))

/-! ### HTTP responses (`cmd/api/errors.go`, `cmd/api/middleware.go`)

Go's `http.Header` canonicalizes header keys through
`textproto.CanonicalMIMEHeaderKey`: when every byte of the key is a
valid header-field byte, the first letter and each letter following a
hyphen are upper-cased and the rest lower-cased; a key containing any
invalid byte is left untouched.  `Set` and `Get` both canonicalize. -/

/-- `textproto.validHeaderFieldByte`: RFC 7230 token characters.
(Character 39 is the single quote, character 96 the backquote.) -/
def isTokenChar (c : Char) : Bool :=
  c.isAlphanum ||
    c ∈ ['!', '#', '$', '%', '&', Char.ofNat 39, '*', '+', '-', '.',
         '^', '_', Char.ofNat 96, '|', '~']

/-- Case-normalization pass of `CanonicalMIMEHeaderKey`: `upper` is
true at the start and right after a hyphen. -/
def canonChars : Bool → List Char → List Char
  | _, [] => []
  | upper, c :: rest =>
    (if upper then c.toUpper else c.toLower) :: canonChars (c = '-') rest

/-- `textproto.CanonicalMIMEHeaderKey`. -/
def canonicalMIMEHeaderKey (s : String) : String :=
  if s.toList.all isTokenChar then String.mk (canonChars true s.toList) else s

/-- An `http.Header`: canonical keys with their values. -/
abbrev Header := List (String × String)

/-- `http.Header.Set`: store the value under the canonicalized key,
replacing previous values of that key. -/
def headerSet (h : Header) (key value : String) : Header :=
  let k := canonicalMIMEHeaderKey key
  (k, value) :: h.filter (fun p => p.1 ≠ k)

/-- `http.Header.Get`: look up by canonicalized key. -/
def headerGet (h : Header) (key : String) : Option String :=
  (h.find? (fun p => p.1 = canonicalMIMEHeaderKey key)).map Prod.snd

/-- An HTTP request as seen by the middleware: method and URL. -/
structure Request where
  method : String
  url : String
deriving DecidableEq, Repr

/-- The observable outcome of handling a request: response status,
response headers, the client-facing message carried in the JSON error
envelope, and the log lines written. -/
structure HttpOut where
  status : Nat
  headers : Header
  body : String
  log : List String
deriving DecidableEq, Repr

/-- `app.logError`: log the error together with the request method and
URL. -/
def logError (lg : List String) (req : Request) (err : String) : List String :=
  lg ++ [err ++ " request_method=" ++ req.method ++ " request_url=" ++ req.url]

/-- `app.errorResponse` via `writeJSON`: envelope the message, add the
`Content-Type` header, and write the status code. -/
def errorResponse (hdrs : Header) (lg : List String) (status : Nat)
    (message : String) : HttpOut :=
  { status := status
    headers := headerSet hdrs "Content-Type" "application/json"
    body := message
    log := lg }

/-- The generic opaque message of `app.serverErrorResponse`. -/
def serverErrorMessage : String :=
  "the server encountered a problem and could not process your request"

/-- `app.serverErrorResponse`: log the detailed error, answer 500 with
the generic message. -/
def serverErrorResponse (req : Request) (hdrs : Header) (lg : List String)
    (err : String) : HttpOut :=
  errorResponse hdrs (logError lg req err) 500 serverErrorMessage

/-- `app.invalidAuthenticationTokenResponse` (`errors.go`): sets the
challenge header exactly as the source spells it, then answers 401. -/
def invalidAuthenticationTokenResponse (req : Request) (hdrs : Header)
    (lg : List String) : HttpOut :=
  errorResponse (headerSet hdrs "WWWW-Authenticate" "Bearer") lg 401
    "invalid or missing authentication token"

/-- `app.recoverPanic` (`middleware.go`): pass a normal outcome
through; recover a panic by setting the connection-close header exactly
as the source spells its key and answering through
`serverErrorResponse`. -/
def recoverPanic (next : Request → PanicOr HttpOut) (req : Request) :
    PanicOr HttpOut :=
  match next req with
  | .ok out => .ok out
  | .panicked msg =>
    .ok (serverErrorResponse req (headerSet [] "Connection:" "close") [] msg)
/-! Helper lemmas about `updateRun`. -/

theorem updateRun_no_match (movie : Movie) (l : MoviesTable)
    (h : ∀ row ∈ l, ¬(row.id = movie.id ∧ row.version = movie.version)) :
    updateRun movie l = (l, []) := by
  induction l with
  | nil => rfl
  | cons row rest ih =>
    have hrow := h row (List.mem_cons_self _ _)
    have hrest := ih (fun r hr => h r (List.mem_cons_of_mem _ hr))
    simp [updateRun, hrest, if_neg hrow]

theorem updateRun_append (movie : Movie) (l1 l2 : MoviesTable) :
    updateRun movie (l1 ++ l2) =
      ((updateRun movie l1).1 ++ (updateRun movie l2).1,
       (updateRun movie l1).2 ++ (updateRun movie l2).2) := by
  induction l1 with
  | nil => simp [updateRun]
  | cons row rest ih =>
    by_cases h : row.id = movie.id ∧ row.version = movie.version
    · simp [updateRun, ih, if_pos h]
    · simp [updateRun, ih, if_neg h]

/-- On a table decomposed around the unique matching row, the update
statement rewrites exactly that row and returns its new version. -/
theorem updateRun_single_match (movie row : Movie) (pre post : MoviesTable)
    (hpre : ∀ r ∈ pre, ¬(r.id = movie.id ∧ r.version = movie.version))
    (hpost : ∀ r ∈ post, ¬(r.id = movie.id ∧ r.version = movie.version))
    (hid : row.id = movie.id) (hver : row.version = movie.version) :
    updateRun movie (pre ++ row :: post) =
      (pre ++ applyUpdate movie row :: post, [row.version + 1]) := by
  have h1 := updateRun_no_match movie pre hpre
  have h2 := updateRun_no_match movie post hpost
  have h3 : updateRun movie (row :: post) =
      (applyUpdate movie row :: post, [row.version + 1]) := by
    simp [updateRun, h2, if_pos (And.intro hid hver)]
  rw [updateRun_append, h1, h3]
  simp

/-- Unfolded form of `MovieModel.Update` on a table whose unique
matching row is exhibited by a decomposition. -/
theorem update_decomposed (movie row : Movie) (pre post : MoviesTable)
    (huniq : uniqueIds (pre ++ row :: post))
    (hid : row.id = movie.id) (hver : row.version = movie.version) :
    MovieModel.Update movie (pre ++ row :: post) =
      (.ok { movie with version := row.version + 1 },
       pre ++ applyUpdate movie row :: post) := by
  rcases List.pairwise_append.mp huniq with ⟨_, hcons, hcross⟩
  have hpre : ∀ r ∈ pre, ¬(r.id = movie.id ∧ r.version = movie.version) := by
    intro r hr hcontra
    exact hcross r hr row (List.mem_cons_self _ _) (hcontra.1.trans hid.symm)
  have hpost : ∀ r ∈ post, ¬(r.id = movie.id ∧ r.version = movie.version) := by
    intro r hr hcontra
    exact (List.pairwise_cons.mp hcons).1 r hr (hid.trans hcontra.1.symm)
  have hrun := updateRun_single_match movie row pre post hpre hpost hid hver
  simp [MovieModel.Update, hrun]


/-- C1: `MovieModel.Update` issues a conditional update guarded by both
id and version: when no row matches the pair it returns
`ErrEditConflict` and leaves the stored records unchanged; when a row
matches, the stored version becomes exactly the old version plus one
and the returned new version is written back into the movie value. -/
theorem movieUpdate_conflict_or_version_increment (movie : Movie)
    (db : MoviesTable) (huniq : uniqueIds db) :
    ((∀ row ∈ db, ¬(row.id = movie.id ∧ row.version = movie.version)) →
        MovieModel.Update movie db = (.error .editConflict, db)) ∧
    (∀ pre row post, db = pre ++ row :: post →
        row.id = movie.id → row.version = movie.version →
        MovieModel.Update movie db =
          (.ok { movie with version := row.version + 1 },
           pre ++ applyUpdate movie row :: post) ∧
        (applyUpdate movie row).version = row.version + 1) := by
  constructor
  · intro hnone
    have h := updateRun_no_match movie db hnone
    simp [MovieModel.Update, h]
  · intro pre row post hdb hid hver
    subst hdb
    exact ⟨update_decomposed movie row pre post huniq hid hver, rfl⟩

/-- Witness for C1: a concrete two-row table; the row with matching id
and version is rewritten to version 2 and returned, the other row is
untouched. -/
theorem movieUpdate_conflict_or_version_increment_witness :
    MovieModel.Update
        { id := 1, createdAt := 0, title := "Moana", year := 2016,
          runtime := 107, genres := ["animation"], version := 1 }
        [{ id := 1, createdAt := 0, title := "Casablanca", year := 1942,
           runtime := 102, genres := ["drama"], version := 1 },
         { id := 2, createdAt := 0, title := "Alien", year := 1979,
           runtime := 117, genres := ["horror"], version := 3 }] =
      (.ok { id := 1, createdAt := 0, title := "Moana", year := 2016,
             runtime := 107, genres := ["animation"], version := 2 },
       [{ id := 1, createdAt := 0, title := "Moana", year := 2016,
          runtime := 107, genres := ["animation"], version := 2 },
        { id := 2, createdAt := 0, title := "Alien", year := 1979,
          runtime := 117, genres := ["horror"], version := 3 }]) :=
  ((movieUpdate_conflict_or_version_increment
      { id := 1, createdAt := 0, title := "Moana", year := 2016,
        runtime := 107, genres := ["animation"], version := 1 }
      [{ id := 1, createdAt := 0, title := "Casablanca", year := 1942,
         runtime := 102, genres := ["drama"], version := 1 },
       { id := 2, createdAt := 0, title := "Alien", year := 1979,
         runtime := 117, genres := ["horror"], version := 3 }]
      (by decide)).2
    [] { id := 1, createdAt := 0, title := "Casablanca", year := 1942,
         runtime := 102, genres := ["drama"], version := 1 }
    [{ id := 2, createdAt := 0, title := "Alien", year := 1979,
       runtime := 117, genres := ["horror"], version := 3 }]
    rfl rfl rfl).1

/-- C2: two update attempts against the same resource, both submitted
with the resource's current version: in either serial order of the two
conditional updates (both orders instantiate this statement), the first
succeeds and returns version `v + 1` while the second receives
`ErrEditConflict` and changes nothing — exactly one wins and no write
is silently overwritten. -/
theorem movieUpdate_exactly_one_concurrent_winner
    (m1 m2 row : Movie) (db : MoviesTable)
    (huniq : uniqueIds db) (hrow : row ∈ db)
    (hid1 : m1.id = row.id) (hid2 : m2.id = row.id)
    (hv1 : m1.version = row.version) (hv2 : m2.version = row.version) :
    (MovieModel.Update m1 db).1 = .ok { m1 with version := row.version + 1 } ∧
    MovieModel.Update m2 (MovieModel.Update m1 db).2 =
      (.error .editConflict, (MovieModel.Update m1 db).2) := by
  obtain ⟨pre, post, rfl⟩ := List.append_of_mem hrow
  have h1 := update_decomposed m1 row pre post huniq hid1.symm hv1.symm
  have hfst : (MovieModel.Update m1 (pre ++ row :: post)).1 =
      .ok { m1 with version := row.version + 1 } := by rw [h1]
  have hdb2 : (MovieModel.Update m1 (pre ++ row :: post)).2 =
      pre ++ applyUpdate m1 row :: post := by rw [h1]
  refine ⟨hfst, ?_⟩
  rw [hdb2]
  rcases List.pairwise_append.mp huniq with ⟨_, hcons, hcross⟩
  have hnomatch : ∀ r ∈ pre ++ applyUpdate m1 row :: post,
      ¬(r.id = m2.id ∧ r.version = m2.version) := by
    intro r hr hcontra
    rcases List.mem_append.mp hr with hpre | hrest
    · exact hcross r hpre row (List.mem_cons_self _ _) (hcontra.1.trans hid2)
    · rcases List.mem_cons.mp hrest with heq | hpost
      · have hver : r.version = row.version + 1 := by rw [heq]; rfl
        rw [hv2] at hcontra
        omega
      · exact (List.pairwise_cons.mp hcons).1 r hpost
          (hcontra.1.trans hid2).symm
  have h2 := updateRun_no_match m2 _ hnomatch
  simp [MovieModel.Update, h2]

/-- Witness for C2: both writers start from version 5 of the same
record; the first returns version 6 and the second observes the
conflict. -/
theorem movieUpdate_exactly_one_concurrent_winner_witness :
    (MovieModel.Update
        { id := 7, createdAt := 0, title := "Heat", year := 1995,
          runtime := 170, genres := ["crime"], version := 5 }
        [{ id := 7, createdAt := 0, title := "Heat", year := 1995,
           runtime := 171, genres := ["crime"], version := 5 }]).1 =
      .ok { id := 7, createdAt := 0, title := "Heat", year := 1995,
            runtime := 170, genres := ["crime"], version := 6 } ∧
    MovieModel.Update
        { id := 7, createdAt := 0, title := "Ronin", year := 1998,
          runtime := 122, genres := ["action"], version := 5 }
        (MovieModel.Update
          { id := 7, createdAt := 0, title := "Heat", year := 1995,
            runtime := 170, genres := ["crime"], version := 5 }
          [{ id := 7, createdAt := 0, title := "Heat", year := 1995,
             runtime := 171, genres := ["crime"], version := 5 }]).2 =
      (.error .editConflict,
       (MovieModel.Update
          { id := 7, createdAt := 0, title := "Heat", year := 1995,
            runtime := 170, genres := ["crime"], version := 5 }
          [{ id := 7, createdAt := 0, title := "Heat", year := 1995,
             runtime := 171, genres := ["crime"], version := 5 }]).2) :=
  movieUpdate_exactly_one_concurrent_winner
    { id := 7, createdAt := 0, title := "Heat", year := 1995,
      runtime := 170, genres := ["crime"], version := 5 }
    { id := 7, createdAt := 0, title := "Ronin", year := 1998,
      runtime := 122, genres := ["action"], version := 5 }
    { id := 7, createdAt := 0, title := "Heat", year := 1995,
      runtime := 171, genres := ["crime"], version := 5 }
    [{ id := 7, createdAt := 0, title := "Heat", year := 1995,
       runtime := 171, genres := ["crime"], version := 5 }]
    (by decide) (by decide) rfl rfl rfl rfl

/-- C10: for every id below 1, `MovieModel.Get` and `MovieModel.Delete`
return `ErrRecordNotFound` without issuing a query to the store (the
Boolean query flag stays false and the table is untouched), and that
error is the very value returned for a record absent from the store, so
the caller cannot distinguish the two. -/
theorem movieGetDelete_negative_id_notfound (id : Int) (db : MoviesTable)
    (hid : id < 1) :
    MovieModel.Get id db = (false, .error .recordNotFound) ∧
    MovieModel.Delete id db = ((false, .error .recordNotFound), db) ∧
    (∀ id2 db2, 1 ≤ id2 → (∀ r ∈ db2, r.id ≠ id2) →
        (MovieModel.Get id2 db2).2 = (MovieModel.Get id db).2 ∧
        (MovieModel.Delete id2 db2).1.2 = (MovieModel.Delete id db).1.2) := by
  refine ⟨by simp [MovieModel.Get, if_pos hid], by simp [MovieModel.Delete, if_pos hid], ?_⟩
  intro id2 db2 hge habs
  have hnlt : ¬ id2 < 1 := by omega
  have hfind : db2.find? (fun r => r.id == id2) = none := by
    rw [List.find?_eq_none]
    intro r hr
    simpa using habs r hr
  have hfilter : db2.filter (fun r => !(r.id == id2)) = db2 := by
    rw [List.filter_eq_self]
    intro r hr
    simpa using habs r hr
  constructor
  · simp [MovieModel.Get, if_neg hnlt, if_pos hid, hfind]
  · simp [MovieModel.Delete, if_neg hnlt, if_pos hid, hfilter]

/-- Witness for C10 at id 0 against a one-row table, compared with the
absent id 42 against the same table. -/
theorem movieGetDelete_negative_id_notfound_witness :
    MovieModel.Get 0
        [{ id := 1, createdAt := 0, title := "Alien", year := 1979,
           runtime := 117, genres := ["horror"], version := 1 }] =
      (false, .error .recordNotFound) ∧
    MovieModel.Delete 0
        [{ id := 1, createdAt := 0, title := "Alien", year := 1979,
           runtime := 117, genres := ["horror"], version := 1 }] =
      ((false, .error .recordNotFound),
       [{ id := 1, createdAt := 0, title := "Alien", year := 1979,
          runtime := 117, genres := ["horror"], version := 1 }]) ∧
    ((MovieModel.Get 42
        [{ id := 1, createdAt := 0, title := "Alien", year := 1979,
           runtime := 117, genres := ["horror"], version := 1 }]).2 =
      (MovieModel.Get 0
        [{ id := 1, createdAt := 0, title := "Alien", year := 1979,
           runtime := 117, genres := ["horror"], version := 1 }]).2 ∧
     (MovieModel.Delete 42
        [{ id := 1, createdAt := 0, title := "Alien", year := 1979,
           runtime := 117, genres := ["horror"], version := 1 }]).1.2 =
      (MovieModel.Delete 0
        [{ id := 1, createdAt := 0, title := "Alien", year := 1979,
           runtime := 117, genres := ["horror"], version := 1 }]).1.2) := by
  have h := movieGetDelete_negative_id_notfound 0
    [{ id := 1, createdAt := 0, title := "Alien", year := 1979,
       runtime := 117, genres := ["horror"], version := 1 }] (by decide)
  exact ⟨h.1, h.2.1, h.2.2 42
    [{ id := 1, createdAt := 0, title := "Alien", year := 1979,
       runtime := 117, genres := ["horror"], version := 1 }]
    (by decide) (by decide)⟩


/-- C4: for a plaintext of 8 to 72 bytes, `password.Set` followed by
`password.Matches` on the same credential returns `(true, nil)` for
that plaintext and `(false, nil)` for every other plaintext. -/
theorem passwordSet_then_matches_roundtrip (p : String)
    (h8 : 8 ≤ p.utf8ByteSize) (h72 : p.utf8ByteSize ≤ 72)
    (cred cred2 : Password) (hset : cred.Set p = .ok cred2) :
    cred2.Matches p = (true, none) ∧
    ∀ p2, p2 ≠ p → cred2.Matches p2 = (false, none) := by
  have hle : ¬ 72 < p.utf8ByteSize := by omega
  have hcred2 : cred2 =
      { plaintext := some p, hash := .valid (.fromPassword 12 p) } := by
    simp [Password.Set, bcryptGenerateFromPassword, if_neg hle] at hset
    exact hset.symm
  subst hcred2
  constructor
  · simp [Password.Matches, bcryptCompareHashAndPassword]
  · intro p2 hne
    simp [Password.Matches, bcryptCompareHashAndPassword,
      if_neg (fun heq : p = p2 => hne heq.symm)]

/-- Witness for C4: an 11-byte password accepts itself and rejects a
different candidate, both with a nil error. -/
theorem passwordSet_then_matches_roundtrip_witness :
    Password.Matches
        { plaintext := some "pa55word123",
          hash := .valid (.fromPassword 12 "pa55word123") } "pa55word123" =
      (true, none) ∧
    Password.Matches
        { plaintext := some "pa55word123",
          hash := .valid (.fromPassword 12 "pa55word123") } "hunter2hunter2" =
      (false, none) :=
  ⟨(passwordSet_then_matches_roundtrip "pa55word123" (by decide) (by decide)
      { plaintext := none, hash := .nil } _ rfl).1,
   (passwordSet_then_matches_roundtrip "pa55word123" (by decide) (by decide)
      { plaintext := none, hash := .nil } _ rfl).2 "hunter2hunter2" (by decide)⟩

/-- C5: `password.Matches` returns `(false, nil)` exactly when the
bcrypt comparison ran and reported a legitimate mismatch, and
`(false, err)` with a non-nil error on every other comparison failure
(nil or malformed stored hash), so the caller can always distinguish a
mismatch from a server-side comparison failure. -/
theorem passwordMatches_mismatch_vs_failure (cred : Password) (p2 : String) :
    (cred.Matches p2 = (false, none) ↔
      bcryptCompareHashAndPassword cred.hash p2 =
        some .mismatchedHashAndPassword) ∧
    (∀ e, bcryptCompareHashAndPassword cred.hash p2 = some e →
        e ≠ BcryptErr.mismatchedHashAndPassword →
        (cred.Matches p2).1 = false ∧ (cred.Matches p2).2 ≠ none) := by
  rcases cred with ⟨pt, hash⟩
  rcases hash with _ | ⟨c, key⟩ | raw
  · simp [Password.Matches, bcryptCompareHashAndPassword]
  · by_cases hkey : key = p2
    · simp [Password.Matches, bcryptCompareHashAndPassword, if_pos hkey]
    · simp [Password.Matches, bcryptCompareHashAndPassword, if_neg hkey]
  · simp [Password.Matches, bcryptCompareHashAndPassword]

/-- Witness for C5: a malformed stored hash surfaces a non-nil error,
while a well-formed hash compared against the wrong password yields the
silent `(false, nil)` mismatch. -/
theorem passwordMatches_mismatch_vs_failure_witness :
    ((Password.Matches { plaintext := none, hash := .malformed "garbage" }
        "candidate").1 = false ∧
     (Password.Matches { plaintext := none, hash := .malformed "garbage" }
        "candidate").2 ≠ none) ∧
    Password.Matches
        { plaintext := none, hash := .valid (.fromPassword 12 "secretpw1") }
        "wrongpass" = (false, none) :=
  ⟨(passwordMatches_mismatch_vs_failure
        { plaintext := none, hash := .malformed "garbage" } "candidate").2
      (.hashMalformed "garbage") rfl (by decide),
   (passwordMatches_mismatch_vs_failure
        { plaintext := none, hash := .valid (.fromPassword 12 "secretpw1") }
        "wrongpass").1.mpr (by decide)⟩

/-- C8: `ValidateUser` panics (with the fatal assertion message)
precisely when the password hash is nil, and for a non-nil hash it
never panics, returning the accumulated field-validation outcome
instead — the programming defect stays distinguishable from
client-facing validation failures. -/
theorem validateUser_panics_iff_nil_hash (emailRX : String → Bool)
    (v : Validator) (user : User) :
    (user.password.hash = .nil →
        ValidateUser emailRX v user = .panicked "missing password hash for user") ∧
    (user.password.hash ≠ .nil →
        ValidateUser emailRX v user = .ok (userFieldChecks emailRX v user)) := by
  constructor
  · intro h
    simp [ValidateUser, h]
  · intro h
    rcases hh : user.password.hash with _ | hb | raw
    · exact absurd hh h
    · unfold ValidateUser
      rw [hh]
    · unfold ValidateUser
      rw [hh]

/-- Witness for C8: a user with a nil hash panics; the same user with a
well-formed hash validates without panicking. -/
theorem validateUser_panics_iff_nil_hash_witness :
    ValidateUser (fun _ => true) { errors := [] }
        { id := 1, createdAt := 0, name := "Alice", email := "alice@example.com",
          password := { plaintext := none, hash := .nil },
          activated := false, version := 1 } =
      .panicked "missing password hash for user" ∧
    ValidateUser (fun _ => true) { errors := [] }
        { id := 1, createdAt := 0, name := "Alice", email := "alice@example.com",
          password := { plaintext := none,
                        hash := .valid (.fromPassword 12 "pa55word123") },
          activated := false, version := 1 } =
      .ok (userFieldChecks (fun _ => true) { errors := [] }
        { id := 1, createdAt := 0, name := "Alice", email := "alice@example.com",
          password := { plaintext := none,
                        hash := .valid (.fromPassword 12 "pa55word123") },
          activated := false, version := 1 }) :=
  ⟨(validateUser_panics_iff_nil_hash (fun _ => true) { errors := [] }
      { id := 1, createdAt := 0, name := "Alice", email := "alice@example.com",
        password := { plaintext := none, hash := .nil },
        activated := false, version := 1 }).1 rfl,
   (validateUser_panics_iff_nil_hash (fun _ => true) { errors := [] }
      { id := 1, createdAt := 0, name := "Alice", email := "alice@example.com",
        password := { plaintext := none,
                      hash := .valid (.fromPassword 12 "pa55word123") },
        activated := false, version := 1 }).2 (by decide)⟩


/-! Helper lemmas for the token claims. -/

theorem chunk5_length : ∀ l : List Bool, (chunk5 l).length = (l.length + 4) / 5
  | [] => rfl
  | [_] => by simp [chunk5]
  | [_, _] => by simp [chunk5]
  | [_, _, _] => by simp [chunk5]
  | [_, _, _, _] => by simp [chunk5]
  | _ :: _ :: _ :: _ :: _ :: rest => by
    have ih := chunk5_length rest
    simp only [chunk5, List.length_cons, ih]
    omega

theorem flatBits_length (bytes : List Nat) :
    ((bytes.map byteBits).flatten).length = 8 * bytes.length := by
  induction bytes with
  | nil => rfl
  | cons b rest ih =>
    simp only [List.map_cons, List.flatten_cons, List.length_append, ih,
      List.length_cons, byteBits, List.length_nil]
    omega

theorem base32EncodeNoPad_length (bytes : List Nat) :
    (base32EncodeNoPad bytes).length = (8 * bytes.length + 4) / 5 := by
  rw [base32EncodeNoPad, List.length_map, chunk5_length, flatBits_length]

theorem base32Char_utf8Size (n : Nat) :
    (base32StdAlphabet.getD n 'A').utf8Size = 1 := by
  by_cases h : n < 32
  · have hall : ∀ m, m < 32 → (base32StdAlphabet.getD m 'A').utf8Size = 1 := by
      decide
    exact hall n h
  · have hlen : base32StdAlphabet.length ≤ n := by
      have : base32StdAlphabet.length = 32 := by decide
      omega
    rw [List.getD_eq_default _ _ hlen]
    decide

theorem base32EncodeNoPad_ascii (bytes : List Nat) :
    ∀ c ∈ base32EncodeNoPad bytes, c.utf8Size = 1 := by
  intro c hc
  rw [base32EncodeNoPad, List.mem_map] at hc
  obtain ⟨x, _, hxe⟩ := hc
  rw [← hxe]
  exact base32Char_utf8Size _

theorem mk_ascii_utf8ByteSize (l : List Char) (h : ∀ c ∈ l, c.utf8Size = 1) :
    (String.mk l).utf8ByteSize = l.length := by
  induction l with
  | nil => rfl
  | cons c cs ih =>
    have h1 := h c (List.mem_cons_self _ _)
    have h2 := ih (fun x hx => h x (List.mem_cons_of_mem _ hx))
    have hstep : (String.mk (c :: cs)).utf8ByteSize =
        (String.mk cs).utf8ByteSize + c.utf8Size := by
      simp [String.utf8ByteSize]
    rw [hstep, h1, h2, List.length_cons]

theorem validateTokenPlaintext_valid (s : String) (h1 : s ≠ "")
    (h2 : s.utf8ByteSize = 26) :
    (ValidateTokenPlaintext { errors := [] } s).valid = true := by
  simp [ValidateTokenPlaintext, Validator.check, Validator.valid, h1, h2]

/-- C6: when the random source succeeds, `generateToken` yields a token
whose plaintext is the unpadded base-32 encoding of the 16 random bytes
— hence exactly 26 characters (and 26 bytes), passing
`ValidateTokenPlaintext` — whose hash is the SHA-256 digest of the
plaintext bytes, and whose expiry is the generation time plus the
ttl. -/
theorem generateToken_base32_sha256_expiry (userID ttl now : Int)
    (scope : String) (randomBytes : List Nat)
    (hlen : randomBytes.length = 16) :
    generateToken userID ttl scope now (.ok randomBytes) =
      .ok { plaintext := String.mk (base32EncodeNoPad randomBytes)
            hash := sha256Bytes
              (strBytes (String.mk (base32EncodeNoPad randomBytes)))
            userID := userID
            expiry := now + ttl
            scope := scope } ∧
    (String.mk (base32EncodeNoPad randomBytes)).length = 26 ∧
    (String.mk (base32EncodeNoPad randomBytes)).utf8ByteSize = 26 ∧
    (ValidateTokenPlaintext { errors := [] }
        (String.mk (base32EncodeNoPad randomBytes))).valid = true := by
  have hchars : (base32EncodeNoPad randomBytes).length = 26 := by
    rw [base32EncodeNoPad_length, hlen]
  have hlen26 : (String.mk (base32EncodeNoPad randomBytes)).length = 26 := by
    simpa using hchars
  have hbytes : (String.mk (base32EncodeNoPad randomBytes)).utf8ByteSize = 26 := by
    rw [mk_ascii_utf8ByteSize _ (base32EncodeNoPad_ascii randomBytes), hchars]
  have hne : String.mk (base32EncodeNoPad randomBytes) ≠ "" := by
    intro h
    rw [h] at hlen26
    simp at hlen26
  exact ⟨rfl, hlen26, hbytes,
    validateTokenPlaintext_valid _ hne hbytes⟩

/-- Witness for C6: sixteen zero bytes. -/
theorem generateToken_base32_sha256_expiry_witness :
    generateToken 7 86400 ScopeActivation 1000 (.ok (List.replicate 16 0)) =
      .ok { plaintext := String.mk (base32EncodeNoPad (List.replicate 16 0))
            hash := sha256Bytes
              (strBytes (String.mk (base32EncodeNoPad (List.replicate 16 0))))
            userID := 7
            expiry := 1000 + 86400
            scope := ScopeActivation } ∧
    (String.mk (base32EncodeNoPad (List.replicate 16 0))).length = 26 ∧
    (String.mk (base32EncodeNoPad (List.replicate 16 0))).utf8ByteSize = 26 ∧
    (ValidateTokenPlaintext { errors := [] }
        (String.mk (base32EncodeNoPad (List.replicate 16 0)))).valid = true :=
  generateToken_base32_sha256_expiry 7 86400 1000 ScopeActivation
    (List.replicate 16 0) (by decide)

/-- C7: `TokenModel.DeleteAllForUser` removes exactly the stored tokens
whose scope and user both match; every token of another user or scope
stays, and the surviving rows keep their order and multiplicity (the
result is a sublist of the table). -/
theorem deleteAllForUser_removes_exactly_matching (scope : String)
    (userID : Int) (db : List TokenRow) :
    (∀ t ∈ db, t.scope = scope ∧ t.userID = userID →
        t ∉ TokenModel.DeleteAllForUser scope userID db) ∧
    (∀ t ∈ db, ¬(t.scope = scope ∧ t.userID = userID) →
        t ∈ TokenModel.DeleteAllForUser scope userID db) ∧
    (TokenModel.DeleteAllForUser scope userID db).Sublist db := by
  refine ⟨?_, ?_, List.filter_sublist _⟩
  · intro t ht hmatch hmem
    rw [TokenModel.DeleteAllForUser, List.mem_filter] at hmem
    simp [hmatch.1, hmatch.2] at hmem
  · intro t ht hmatch
    rw [TokenModel.DeleteAllForUser, List.mem_filter]
    refine ⟨ht, ?_⟩
    have hor : ¬t.scope = scope ∨ ¬t.userID = userID := by tauto
    simpa using hor

/-- Witness for C7: of three stored tokens, exactly the activation
token of user 1 is removed; the activation token of user 2 and the
authentication token of user 1 survive. -/
theorem deleteAllForUser_removes_exactly_matching_witness :
    ({ hash := [1], userID := 1, expiry := 50, scope := "activation" } : TokenRow) ∉
      TokenModel.DeleteAllForUser "activation" 1
        [{ hash := [1], userID := 1, expiry := 50, scope := "activation" },
         { hash := [2], userID := 2, expiry := 60, scope := "activation" },
         { hash := [3], userID := 1, expiry := 70, scope := "authentication" }] ∧
    ({ hash := [2], userID := 2, expiry := 60, scope := "activation" } : TokenRow) ∈
      TokenModel.DeleteAllForUser "activation" 1
        [{ hash := [1], userID := 1, expiry := 50, scope := "activation" },
         { hash := [2], userID := 2, expiry := 60, scope := "activation" },
         { hash := [3], userID := 1, expiry := 70, scope := "authentication" }] ∧
    ({ hash := [3], userID := 1, expiry := 70, scope := "authentication" } : TokenRow) ∈
      TokenModel.DeleteAllForUser "activation" 1
        [{ hash := [1], userID := 1, expiry := 50, scope := "activation" },
         { hash := [2], userID := 2, expiry := 60, scope := "activation" },
         { hash := [3], userID := 1, expiry := 70, scope := "authentication" }] := by
  have h := deleteAllForUser_removes_exactly_matching "activation" 1
    [{ hash := [1], userID := 1, expiry := 50, scope := "activation" },
     { hash := [2], userID := 2, expiry := 60, scope := "activation" },
     { hash := [3], userID := 1, expiry := 70, scope := "authentication" }]
  exact ⟨h.1 _ (by decide) (by decide), h.2.1 _ (by decide) (by decide),
    h.2.1 _ (by decide) (by decide)⟩


/-- C3 (counter-evidence from the code): the 401
invalid-authentication-token response carries no header named
`WWW-Authenticate`: the source spells the key `WWWW-Authenticate`
(four W characters), which Go canonicalizes to `Wwww-Authenticate`, a
different header name even case-insensitively.  The status code and the
challenge value are otherwise as claimed. -/
theorem invalidAuthenticationTokenResponse_misspells_challenge :
    (invalidAuthenticationTokenResponse ⟨"GET", "/v1/movies"⟩ [] []).status = 401 ∧
    headerGet
        (invalidAuthenticationTokenResponse ⟨"GET", "/v1/movies"⟩ [] []).headers
        "WWW-Authenticate" = none ∧
    headerGet
        (invalidAuthenticationTokenResponse ⟨"GET", "/v1/movies"⟩ [] []).headers
        "WWWW-Authenticate" = some "Bearer" ∧
    (invalidAuthenticationTokenResponse ⟨"GET", "/v1/movies"⟩ [] []).headers =
      [("Content-Type", "application/json"), ("Wwww-Authenticate", "Bearer")] := by
  refine ⟨rfl, ?_, ?_, ?_⟩ <;> decide

/-- C9 (counter-evidence from the code): a panicking handler is
recovered, logged and converted to a 500 carrying the generic opaque
message — but the header the source sets is keyed `"Connection:"`
(trailing colon; the colon is not a valid header-field byte, so Go
leaves the key untouched), so the response carries no header named
`Connection` and the server is never told to close the connection. -/
theorem recoverPanic_connection_header_key_typo :
    recoverPanic (fun _ => .panicked "boom") ⟨"GET", "/v1/movies"⟩ =
      .ok (serverErrorResponse ⟨"GET", "/v1/movies"⟩
        (headerSet [] "Connection:" "close") [] "boom") ∧
    (serverErrorResponse ⟨"GET", "/v1/movies"⟩
        (headerSet [] "Connection:" "close") [] "boom").status = 500 ∧
    (serverErrorResponse ⟨"GET", "/v1/movies"⟩
        (headerSet [] "Connection:" "close") [] "boom").body =
      serverErrorMessage ∧
    headerGet (serverErrorResponse ⟨"GET", "/v1/movies"⟩
        (headerSet [] "Connection:" "close") [] "boom").headers
        "Connection" = none ∧
    headerGet (serverErrorResponse ⟨"GET", "/v1/movies"⟩
        (headerSet [] "Connection:" "close") [] "boom").headers
        "Connection:" = some "close" ∧
    (serverErrorResponse ⟨"GET", "/v1/movies"⟩
        (headerSet [] "Connection:" "close") [] "boom").log =
      ["boom request_method=GET request_url=/v1/movies"] := by
  refine ⟨rfl, rfl, rfl, ?_, ?_, rfl⟩ <;> decide

end Greenlight
